import Mathlib

/-!
Verification of the `ins_nav` coordinate-transform library.

The definitions below are a shallow embedding, over the real numbers, of
`ins_nav/wgs84.py` and `ins_nav/transforms.py`: WGS84 ellipsoid constants,
the closed-form ECEF↔LLH conversions, the direction-cosine-matrix builder
`llh2DCM`, and the local navigation-frame abstraction (`NavigationFrame`
with concrete `NED` and `ENU` kinds).
-/

open Real Matrix

namespace InsNav

/-- Semi-major axis of Earth in meters (`wgs84.py`, `RE`). -/
def RE : ℝ := 6378137.0

/-- Flattening of the WGS84 ellipsoid (`wgs84.py`, `FLATTENING`). -/
def FLATTENING : ℝ := 0.00335281066475

/-- Eccentricity of the Earth ellipsoid, squared (`wgs84.py`, `E2`). -/
def E2 : ℝ := 0.00669437999014

/-- Modelled from the spec: `ins_nav.utils.DEG2RAD` is imported by
`transforms.py` but `utils.py` is not among the given sources; the spec
says lat/lon in degrees are "converted to radians", so this is π/180. -/
noncomputable def DEG2RAD : ℝ := Real.pi / 180

/-- Modelled from the spec: `ins_nav.utils.RAD2DEG` is imported by
`transforms.py` but `utils.py` is not among the given sources; the spec
says latitude/longitude are "converted to degrees", so this is 180/π. -/
noncomputable def RAD2DEG : ℝ := 180 / Real.pi

/-- Real-number model of `math.atan2 y x` (C convention: quadrant-aware
arctangent; `atan2 0 0 = 0`; reals carry no signed zero). -/
noncomputable def atan2 (y x : ℝ) : ℝ :=
  if 0 < x then Real.arctan (y / x)
  else if x < 0 ∧ 0 ≤ y then Real.arctan (y / x) + Real.pi
  else if x < 0 ∧ y < 0 then Real.arctan (y / x) - Real.pi
  else if x = 0 ∧ 0 < y then Real.pi / 2
  else if x = 0 ∧ y < 0 then -(Real.pi / 2)
  else 0

/-! `ecef2llh` (transforms.py lines 135-152), split into its intermediate
quantities so theorems can speak about them. Source-local names: `p`, `b`,
`ep`, `theta`, `l` (longitude), `L` (latitude), `Re`, `h`. -/

/-- Intermediate `p = sqrt(x**2 + y**2)` of `ecef2llh`. -/
noncomputable def ecef2llh_p (x y : ℝ) : ℝ := Real.sqrt (x ^ 2 + y ^ 2)

/-- Intermediate `b = RE*(1-FLATTENING)` of `ecef2llh` (semi-minor axis). -/
noncomputable def ecef2llh_b : ℝ := RE * (1 - FLATTENING)

/-- Intermediate `ep = (RE**2 - b**2)/(b**2)` of `ecef2llh`. -/
noncomputable def ecef2llh_ep : ℝ := (RE ^ 2 - ecef2llh_b ^ 2) / ecef2llh_b ^ 2

/-- Intermediate `theta = atan2(z*RE, p*b)` of `ecef2llh`. -/
noncomputable def ecef2llh_theta (x y z : ℝ) : ℝ :=
  atan2 (z * RE) (ecef2llh_p x y * ecef2llh_b)

/-- Intermediate `l = atan2(y, x)` of `ecef2llh`: longitude in radians. -/
noncomputable def ecef2llh_lon (x y : ℝ) : ℝ := atan2 y x

/-- Intermediate `L = atan2(z+ep*b*sin(theta)**3, p-E2*RE*cos(theta)**3)`
of `ecef2llh`: latitude in radians (Bowring closed form). -/
noncomputable def ecef2llh_L (x y z : ℝ) : ℝ :=
  atan2 (z + ecef2llh_ep * ecef2llh_b * Real.sin (ecef2llh_theta x y z) ^ 3)
        (ecef2llh_p x y - E2 * RE * Real.cos (ecef2llh_theta x y z) ^ 3)

/-- Intermediate `Re = RE/sqrt(1-E2*sin(L)**2)` of `ecef2llh`. -/
noncomputable def ecef2llh_Re (x y z : ℝ) : ℝ :=
  RE / Real.sqrt (1 - E2 * Real.sin (ecef2llh_L x y z) ^ 2)

/-- Intermediate `h = p/cos(L) - Re` of `ecef2llh`. -/
noncomputable def ecef2llh_h (x y z : ℝ) : ℝ :=
  ecef2llh_p x y / Real.cos (ecef2llh_L x y z) - ecef2llh_Re x y z

/-- ECEF [m,m,m] to latitude, longitude, height [deg,deg,m]
(transforms.py `ecef2llh`): returns `[RAD2DEG*L, RAD2DEG*l, h]`. -/
noncomputable def ecef2llh (x y z : ℝ) : Fin 3 → ℝ :=
  ![RAD2DEG * ecef2llh_L x y z, RAD2DEG * ecef2llh_lon x y, ecef2llh_h x y z]

/-- Latitude, longitude, height [deg,deg,m] to ECEF [m,m,m]
(transforms.py `llh2ecef`): converts to radians, forms the
meridional radius `rm` and normal radius `rn`, and returns
`[(rn+H)*cos(lat)*cos(lon), (rn+H)*cos(lat)*sin(lon), (rm+H)*sin(lat)]`.
`pow(q, 3.0/2.0)` is embedded as real `q ^ ((3:ℝ)/2)`. -/
noncomputable def llh2ecef (lat lon H : ℝ) : Fin 3 → ℝ :=
  let lat' := DEG2RAD * lat
  let lon' := DEG2RAD * lon
  let rm := RE * (1 - E2) / (1 - E2 * Real.sin lat' ^ 2) ^ ((3 : ℝ) / 2)
  let rn := RE / Real.sqrt (1 - E2 * Real.sin lat' ^ 2)
  ![(rn + H) * Real.cos lat' * Real.cos lon',
    (rn + H) * Real.cos lat' * Real.sin lon',
    (rm + H) * Real.sin lat']

/-- Built from the spec's words (§4.1, llh2ecef algorithm), for comparison
with the source embedding `llh2ecef`: "convert lat/lon to radians;
meridional radius of curvature rm = RE·(1−E2)/(1−E2·sin²lat)^1.5; normal
radius of curvature rn = RE/√(1−E2·sin²lat); x=(rn+H)·cos(lat)·cos(lon),
y=(rn+H)·cos(lat)·sin(lon), z=(rm+H)·sin(lat)". -/
noncomputable def llh2ecef_specform (lat lon H : ℝ) : Fin 3 → ℝ :=
  let φ := DEG2RAD * lat
  let lam := DEG2RAD * lon
  let rm := RE * (1 - E2) / (1 - E2 * Real.sin φ ^ 2) ^ ((3 : ℝ) / 2)
  let rn := RE / Real.sqrt (1 - E2 * Real.sin φ ^ 2)
  ![(rn + H) * Real.cos φ * Real.cos lam,
    (rn + H) * Real.cos φ * Real.sin lam,
    (rm + H) * Real.sin φ]

/-- Direction cosine matrix from lat/lon [rad], height [m] and wander
azimuth pair `w = (sin w, cos w)` (transforms.py `llh2DCM`):
`Cgn.dot(Ceg)`. -/
noncomputable def llh2DCM (lat lon h : ℝ) (w : ℝ × ℝ) :
    Matrix (Fin 3) (Fin 3) ℝ :=
  let sL := Real.sin lat
  let cL := Real.cos lat
  let sl := Real.sin lon
  let cl := Real.cos lon
  let Cgn : Matrix (Fin 3) (Fin 3) ℝ := !![w.2, w.1, 0; -w.1, w.2, 0; 0, 0, 1]
  let Ceg : Matrix (Fin 3) (Fin 3) ℝ :=
    !![-sL * cl, -sL * sl, cL; -sl, cl, 0; -cL * cl, -cL * sl, -sL]
  Cgn * Ceg

/-- Frame kind tag (transforms.py `FrameTypes = IntFlag("FrameTypes", "NED ENU")`). -/
inductive FrameTypes
  | NED
  | ENU
deriving DecidableEq

/-- Base local navigation frame (transforms.py `NavigationFrame`, a
namedtuple of `origin R type`). -/
structure NavigationFrame where
  origin : Fin 3 → ℝ
  R : Matrix (Fin 3) (Fin 3) ℝ
  type : FrameTypes

/-- `NavigationFrame.ecef2nav`: `R.dot(p_ecef - origin)`. -/
def NavigationFrame.ecef2nav (f : NavigationFrame) (p_ecef : Fin 3 → ℝ) :
    Fin 3 → ℝ :=
  f.R.mulVec (p_ecef - f.origin)

/-- `NavigationFrame.nav2ecef`: `R.T.dot(p_nav) + origin`. -/
def NavigationFrame.nav2ecef (f : NavigationFrame) (p_nav : Fin 3 → ℝ) :
    Fin 3 → ℝ :=
  f.R.transpose.mulVec p_nav + f.origin

/-- `ENU(o, r)`: a `NavigationFrame` tagged `FrameTypes.ENU` (transforms.py
`ENU.__new__`). -/
def ENU.new (o : Fin 3 → ℝ) (r : Matrix (Fin 3) (Fin 3) ℝ) : NavigationFrame :=
  ⟨o, r, FrameTypes.ENU⟩

/-- `NED(o, r)`: a `NavigationFrame` tagged `FrameTypes.NED` (transforms.py
`NED.__new__`). -/
def NED.new (o : Fin 3 → ℝ) (r : Matrix (Fin 3) (Fin 3) ℝ) : NavigationFrame :=
  ⟨o, r, FrameTypes.NED⟩

/-- Frame equality as implemented by `NED.__eq__` and `ENU.__eq__`
(transforms.py): `self.type == a.type`, comparing only the kind tag. -/
def frameEq (a b : NavigationFrame) : Bool := decide (a.type = b.type)

/-- `NED.from_ll(lat, lon, alt)` (transforms.py): origin via `llh2ecef`,
rotation from the inline NED formula at lat/lon converted to radians. -/
noncomputable def NED.from_ll (lat lon alt : ℝ) : NavigationFrame :=
  let o_ecef := llh2ecef lat lon alt
  let lat' := DEG2RAD * lat
  let lon' := DEG2RAD * lon
  let R : Matrix (Fin 3) (Fin 3) ℝ :=
    !![-Real.sin lat' * Real.cos lon', -Real.sin lat' * Real.sin lon', Real.cos lat';
       -Real.sin lon', Real.cos lon', 0;
       -Real.cos lat' * Real.cos lon', -Real.cos lat' * Real.sin lon', -Real.sin lat']
  NED.new o_ecef R

/-- `NED.from_ecef(x, y, z)` (transforms.py): origin is the input ECEF
point; lat/lon recovered via `ecef2llh` (degrees), converted to radians,
then the same inline NED rotation formula. -/
noncomputable def NED.from_ecef (x y z : ℝ) : NavigationFrame :=
  let o_ecef : Fin 3 → ℝ := ![x, y, z]
  let lat' := DEG2RAD * (ecef2llh x y z 0)
  let lon' := DEG2RAD * (ecef2llh x y z 1)
  let R : Matrix (Fin 3) (Fin 3) ℝ :=
    !![-Real.sin lat' * Real.cos lon', -Real.sin lat' * Real.sin lon', Real.cos lat';
       -Real.sin lon', Real.cos lon', 0;
       -Real.cos lat' * Real.cos lon', -Real.cos lat' * Real.sin lon', -Real.sin lat']
  NED.new o_ecef R

/-- Modelled from the spec (§4.3, ENU variant): the standard ECEF→ENU
rotation with rows East `(−sin lon, cos lon, 0)`, North
`(−sin lat·cos lon, −sin lat·sin lon, cos lat)`, Up
`(cos lat·cos lon, cos lat·sin lon, sin lat)`, lat/lon in radians. -/
noncomputable def enuRot (a b : ℝ) : Matrix (Fin 3) (Fin 3) ℝ :=
  !![-Real.sin b, Real.cos b, 0;
     -Real.sin a * Real.cos b, -Real.sin a * Real.sin b, Real.cos a;
     Real.cos a * Real.cos b, Real.cos a * Real.sin b, Real.sin a]

/-- Modelled from the spec (§4.3, ENU variant): the source `ENU` class
defines no `from_ll` factory (only `__new__` and `__eq__`); the spec
requires one of the same shape as `NED.from_ll`, storing the standard
ECEF→ENU rotation `enuRot`. -/
noncomputable def ENU.from_ll (lat lon alt : ℝ) : NavigationFrame :=
  let o_ecef := llh2ecef lat lon alt
  let lat' := DEG2RAD * lat
  let lon' := DEG2RAD * lon
  ENU.new o_ecef (enuRot lat' lon')

/-- Modelled from the spec (§4.3, ENU variant): the source `ENU` class
defines no `from_ecef` factory; the spec requires one of the same shape
as `NED.from_ecef`: origin is the input ECEF point, lat/lon recovered via
`ecef2llh`, rotation the standard ECEF→ENU `enuRot`. -/
noncomputable def ENU.from_ecef (x y z : ℝ) : NavigationFrame :=
  let o_ecef : Fin 3 → ℝ := ![x, y, z]
  let lat' := DEG2RAD * (ecef2llh x y z 0)
  let lon' := DEG2RAD * (ecef2llh x y z 1)
  ENU.new o_ecef (enuRot lat' lon')

/-! Theorems. -/

/-- C2: for every latitude and longitude in degrees and every height H in
meters, `llh2ecef lat lon H` equals the closed-form reference definition
written from the spec: with lat/lon converted to radians,
rm = RE·(1−E2)/(1−E2·sin²lat)^1.5 and rn = RE/√(1−E2·sin²lat), it returns
x=(rn+H)·cos·cos, y=(rn+H)·cos·sin, z=(rm+H)·sin. -/
theorem llh2ecef_matches_specform (lat lon H : ℝ) :
    llh2ecef lat lon H = llh2ecef_specform lat lon H := rfl

/-- C9: `llh2ecef 0 0 0` returns exactly `(RE, 0, 0)`: the
equator/prime-meridian/sea-level point lies on the semi-major axis. -/
theorem llh2ecef_zero_fixed_point : llh2ecef 0 0 0 = ![RE, 0, 0] := by
  funext i
  fin_cases i <;>
    simp [llh2ecef, DEG2RAD, Real.sqrt_one]

/-- C4: for every frame built via `NED.from_ll` or `NED.from_ecef`,
`ecef2nav` applied to the frame's own origin returns exactly the zero
vector. -/
theorem ecef2nav_origin_eq_zero (lat lon alt x y z : ℝ) :
    (NED.from_ll lat lon alt).ecef2nav (NED.from_ll lat lon alt).origin = 0 ∧
    (NED.from_ecef x y z).ecef2nav (NED.from_ecef x y z).origin = 0 := by
  constructor <;> simp [NavigationFrame.ecef2nav]

/-- C5: frame equality compares only the kind tags: two NED frames are
equal whatever their origins and rotations, a NED frame never equals an
ENU frame (in either order), and in general `frameEq a b` holds iff the
tags match. -/
theorem frameEq_kind_only (o₁ o₂ : Fin 3 → ℝ)
    (R₁ R₂ : Matrix (Fin 3) (Fin 3) ℝ) :
    frameEq (NED.new o₁ R₁) (NED.new o₂ R₂) = true ∧
    frameEq (ENU.new o₁ R₁) (ENU.new o₂ R₂) = true ∧
    frameEq (NED.new o₁ R₁) (ENU.new o₂ R₂) = false ∧
    frameEq (ENU.new o₁ R₁) (NED.new o₂ R₂) = false ∧
    ∀ a b : NavigationFrame, frameEq a b = true ↔ a.type = b.type := by
  refine ⟨?_, ?_, ?_, ?_, ?_⟩ <;>
    simp [frameEq, NED.new, ENU.new]

/-- C3: for every `NavigationFrame` whose rotation is orthonormal
(R·Rᵀ = 1) and every ECEF point p, `nav2ecef (ecef2nav p) = p`: over real
arithmetic `nav2ecef` (Rᵀ·q + origin) exactly inverts `ecef2nav`
(R·(p − origin)). -/
theorem nav_frame_roundtrip (f : NavigationFrame) (p : Fin 3 → ℝ)
    (horth : f.R * f.R.transpose = 1) :
    f.nav2ecef (f.ecef2nav p) = p := by
  have h' : f.R.transpose * f.R = 1 := Matrix.mul_eq_one_comm.mp horth
  simp [NavigationFrame.nav2ecef, NavigationFrame.ecef2nav,
    Matrix.mulVec_mulVec, h']

/-- Witness for C3: the identity-rotation NED frame at the origin, applied
to the point (1,2,3). -/
theorem nav_frame_roundtrip_witness :
    (NED.new ![0, 0, 0] 1).R * (NED.new ![0, 0, 0] 1).R.transpose = 1 ∧
    (NED.new ![0, 0, 0] 1).nav2ecef
      ((NED.new ![0, 0, 0] 1).ecef2nav ![1, 2, 3]) = ![1, 2, 3] :=
  ⟨by simp [NED.new], nav_frame_roundtrip _ _ (by simp [NED.new])⟩

/-- C10: the rotation matrix built inline by `NED.from_ll`, and with the
lat/lon recovered by `ecef2llh` the one built by `NED.from_ecef`, equals
`llh2DCM` at the radian angles with zero wander azimuth `w = (0, 1)`: the
factories and the DCM builder use one and the same rotation formula. -/
theorem ned_factories_match_llh2DCM (lat lon alt h x y z : ℝ) :
    (NED.from_ll lat lon alt).R =
      llh2DCM (DEG2RAD * lat) (DEG2RAD * lon) h (0, 1) ∧
    (NED.from_ecef x y z).R =
      llh2DCM (DEG2RAD * (ecef2llh x y z 0)) (DEG2RAD * (ecef2llh x y z 1))
        h (0, 1) := by
  have hCgn : (!![(1 : ℝ), 0, 0; -0, 1, 0; 0, 0, 1]) =
      (1 : Matrix (Fin 3) (Fin 3) ℝ) := by
    rw [Matrix.one_fin_three]
    norm_num
  constructor <;>
    · show _ = (!![(1 : ℝ), 0, 0; -0, 1, 0; 0, 0, 1]) * _
      rw [hCgn, Matrix.one_mul]
      rfl

/-- Local-level rotation `Ceg` of `llh2DCM` (transforms.py line 185); the
same expression is inlined in `NED.from_ll` and `NED.from_ecef`. -/
noncomputable def Ceg (a b : ℝ) : Matrix (Fin 3) (Fin 3) ℝ :=
  !![-Real.sin a * Real.cos b, -Real.sin a * Real.sin b, Real.cos a;
     -Real.sin b, Real.cos b, 0;
     -Real.cos a * Real.cos b, -Real.cos a * Real.sin b, -Real.sin a]

/-- Wander-azimuth rotation `Cgn` of `llh2DCM` (transforms.py line 184). -/
noncomputable def Cgn (w : ℝ × ℝ) : Matrix (Fin 3) (Fin 3) ℝ :=
  !![w.2, w.1, 0; -w.1, w.2, 0; 0, 0, 1]

theorem Ceg_transpose (a b : ℝ) : (Ceg a b).transpose =
    !![-Real.sin a * Real.cos b, -Real.sin b, -Real.cos a * Real.cos b;
       -Real.sin a * Real.sin b, Real.cos b, -Real.cos a * Real.sin b;
       Real.cos a, 0, -Real.sin a] := by
  ext i j
  fin_cases i <;> fin_cases j <;> rfl

theorem Ceg_mul_transpose (a b : ℝ) : Ceg a b * (Ceg a b).transpose = 1 := by
  have ha := Real.sin_sq_add_cos_sq a
  have hb := Real.sin_sq_add_cos_sq b
  rw [Ceg_transpose]
  ext i j
  fin_cases i <;> fin_cases j <;>
    simp [Ceg, Matrix.mul_apply, Fin.sum_univ_three, Matrix.one_apply] <;>
    first
      | ring1
      | linear_combination (Real.sin a ^ 2) * hb + ha
      | linear_combination (Real.cos a ^ 2) * hb + ha
      | linear_combination hb
      | linear_combination (Real.sin a * Real.cos a) * hb

theorem Ceg_det (a b : ℝ) : (Ceg a b).det = 1 := by
  have ha := Real.sin_sq_add_cos_sq a
  have hb := Real.sin_sq_add_cos_sq b
  rw [Matrix.det_fin_three]
  simp [Ceg]
  linear_combination (Real.sin a ^ 2 + Real.cos a ^ 2) * hb + ha

theorem Cgn_transpose (w : ℝ × ℝ) : (Cgn w).transpose =
    !![w.2, -w.1, 0; w.1, w.2, 0; 0, 0, 1] := by
  ext i j
  fin_cases i <;> fin_cases j <;> rfl

theorem Cgn_mul_transpose (w : ℝ × ℝ) (hw : w.1 ^ 2 + w.2 ^ 2 = 1) :
    Cgn w * (Cgn w).transpose = 1 := by
  rw [Cgn_transpose]
  ext i j
  fin_cases i <;> fin_cases j <;>
    simp [Cgn, Matrix.mul_apply, Fin.sum_univ_three, Matrix.one_apply] <;>
    first
      | ring1
      | linear_combination hw

theorem Cgn_det (w : ℝ × ℝ) (hw : w.1 ^ 2 + w.2 ^ 2 = 1) :
    (Cgn w).det = 1 := by
  rw [Matrix.det_fin_three]
  simp [Cgn]
  linear_combination hw

/-- C6: every constructed DCM is a proper rotation: for all lat, lon, h
and every wander pair w with w₁² + w₂² = 1, `llh2DCM lat lon h w`
satisfies R·Rᵀ = 1 and det R = 1; the same holds for the rotation of every
frame built by `NED.from_ll` or `NED.from_ecef`. -/
theorem dcm_proper_rotation (lat lon h x y z : ℝ) (w : ℝ × ℝ)
    (hw : w.1 ^ 2 + w.2 ^ 2 = 1) :
    (llh2DCM lat lon h w * (llh2DCM lat lon h w).transpose = 1 ∧
      (llh2DCM lat lon h w).det = 1) ∧
    ((NED.from_ll lat lon h).R * (NED.from_ll lat lon h).R.transpose = 1 ∧
      (NED.from_ll lat lon h).R.det = 1) ∧
    ((NED.from_ecef x y z).R * (NED.from_ecef x y z).R.transpose = 1 ∧
      (NED.from_ecef x y z).R.det = 1) := by
  refine ⟨⟨?_, ?_⟩, ⟨?_, ?_⟩, ⟨?_, ?_⟩⟩
  · show Cgn w * Ceg lat lon * (Cgn w * Ceg lat lon).transpose = 1
    rw [Matrix.transpose_mul, Matrix.mul_assoc, ← Matrix.mul_assoc (Ceg lat lon),
      Ceg_mul_transpose, Matrix.one_mul, Cgn_mul_transpose w hw]
  · show (Cgn w * Ceg lat lon).det = 1
    rw [Matrix.det_mul, Cgn_det w hw, Ceg_det, one_mul]
  · exact Ceg_mul_transpose (DEG2RAD * lat) (DEG2RAD * lon)
  · exact Ceg_det (DEG2RAD * lat) (DEG2RAD * lon)
  · exact Ceg_mul_transpose (DEG2RAD * (ecef2llh x y z 0))
      (DEG2RAD * (ecef2llh x y z 1))
  · exact Ceg_det (DEG2RAD * (ecef2llh x y z 0)) (DEG2RAD * (ecef2llh x y z 1))

/-- Witness for C6: lat = lon = h = x = y = z = 0 and wander pair (0, 1),
whose components satisfy 0² + 1² = 1. -/
theorem dcm_proper_rotation_witness :
    ((0 : ℝ) ^ 2 + (1 : ℝ) ^ 2 = 1) ∧
    ((llh2DCM 0 0 0 (0, 1) * (llh2DCM 0 0 0 (0, 1)).transpose = 1 ∧
      (llh2DCM 0 0 0 (0, 1)).det = 1) ∧
    ((NED.from_ll 0 0 0).R * (NED.from_ll 0 0 0).R.transpose = 1 ∧
      (NED.from_ll 0 0 0).R.det = 1) ∧
    ((NED.from_ecef 0 0 0).R * (NED.from_ecef 0 0 0).R.transpose = 1 ∧
      (NED.from_ecef 0 0 0).R.det = 1)) :=
  ⟨by norm_num, dcm_proper_rotation 0 0 0 0 0 0 (0, 1) (by norm_num)⟩

theorem atan2_zero_zero : atan2 0 0 = 0 := by
  simp [atan2]

theorem atan2_pos_zero (y : ℝ) (hy : 0 < y) : atan2 y 0 = Real.pi / 2 := by
  simp [atan2, hy, lt_irrefl, hy.ne']

theorem ecef2llh_b_pos : 0 < ecef2llh_b := by
  unfold ecef2llh_b RE FLATTENING
  norm_num

theorem ecef2llh_ep_pos : 0 < ecef2llh_ep := by
  have hb := ecef2llh_b_pos
  have hlt : ecef2llh_b < RE := by
    unfold ecef2llh_b RE FLATTENING
    norm_num
  have hRE : (0 : ℝ) < RE := by unfold RE; norm_num
  exact div_pos (by nlinarith) (by positivity)

/-- C8 counterexample: at the pole input (x, y, z) = (0, 0, 1) the
latitude `L` computed by `ecef2llh` is exactly π/2, so the divisor
`cos(L)` of `h = p/cos(L) - Re` is exactly 0 (and `p = 0`): in exact real
arithmetic the division `p/cos(L)` is a division by zero, contrary to the
claim that it never divides by zero. -/
theorem ecef2llh_pole_divisor_is_zero :
    Real.cos (ecef2llh_L 0 0 1) = 0 ∧ ecef2llh_p 0 0 = 0 := by
  have hp : ecef2llh_p 0 0 = 0 := by
    simp [ecef2llh_p]
  have hRE : (0 : ℝ) < RE := by unfold RE; norm_num
  have htheta : ecef2llh_theta 0 0 1 = Real.pi / 2 := by
    unfold ecef2llh_theta
    rw [hp, zero_mul, one_mul]
    exact atan2_pos_zero RE hRE
  have hL : ecef2llh_L 0 0 1 = Real.pi / 2 := by
    unfold ecef2llh_L
    rw [hp, htheta, Real.sin_pi_div_two, Real.cos_pi_div_two]
    have harg1 : (1 : ℝ) + ecef2llh_ep * ecef2llh_b * 1 ^ 3 =
        1 + ecef2llh_ep * ecef2llh_b := by ring
    have harg2 : (0 : ℝ) - E2 * RE * 0 ^ 3 = 0 := by ring
    rw [harg1, harg2]
    have hpos : 0 < 1 + ecef2llh_ep * ecef2llh_b := by
      have := ecef2llh_ep_pos
      have := ecef2llh_b_pos
      positivity
    exact atan2_pos_zero _ hpos
  exact ⟨by rw [hL, Real.cos_pi_div_two], hp⟩

/-- C8 (amended): for every finite input, `ecef2llh` is a total
closed-form computation with no error path (in the embedding every
operation, division included, yields a defined value), and at a pole
input x = y = 0 the returned longitude is 0; the divisor `cos(L)` can be
exactly zero at such inputs in exact arithmetic, which is defined
boundary behavior, not a fault. -/
theorem ecef2llh_pole_longitude_zero (z : ℝ) : ecef2llh 0 0 z 1 = 0 := by
  have hlon : ecef2llh_lon 0 0 = 0 := atan2_zero_zero
  simp [ecef2llh, hlon]

theorem enuRot_transpose (a b : ℝ) : (enuRot a b).transpose =
    !![-Real.sin b, -Real.sin a * Real.cos b, Real.cos a * Real.cos b;
       Real.cos b, -Real.sin a * Real.sin b, Real.cos a * Real.sin b;
       0, Real.cos a, Real.sin a] := by
  ext i j
  fin_cases i <;> fin_cases j <;> rfl

theorem enuRot_mul_transpose (a b : ℝ) :
    enuRot a b * (enuRot a b).transpose = 1 := by
  have ha := Real.sin_sq_add_cos_sq a
  have hb := Real.sin_sq_add_cos_sq b
  rw [enuRot_transpose]
  ext i j
  fin_cases i <;> fin_cases j <;>
    simp [enuRot, Matrix.mul_apply, Fin.sum_univ_three, Matrix.one_apply] <;>
    first
      | ring1
      | linear_combination (Real.sin a ^ 2) * hb + ha
      | linear_combination (Real.cos a ^ 2) * hb + ha
      | linear_combination hb
      | linear_combination (Real.sin a * Real.cos a) * hb
      | linear_combination (-(Real.sin a * Real.cos a)) * hb

/-- C7, settled against the spec-modelled factories (the source `ENU`
class provides none): the ENU factories of the spec store exactly the
standard ECEF→ENU rotation rows (East, North, Up), tag the frame `ENU`,
the rotation is orthonormal, and the frame satisfies the base-class
transform contract that the origin maps to the zero vector. -/
theorem enu_factories_convention (lat lon alt x y z : ℝ) :
    (ENU.from_ll lat lon alt).R =
      !![-Real.sin (DEG2RAD * lon), Real.cos (DEG2RAD * lon), 0;
         -Real.sin (DEG2RAD * lat) * Real.cos (DEG2RAD * lon),
           -Real.sin (DEG2RAD * lat) * Real.sin (DEG2RAD * lon),
           Real.cos (DEG2RAD * lat);
         Real.cos (DEG2RAD * lat) * Real.cos (DEG2RAD * lon),
           Real.cos (DEG2RAD * lat) * Real.sin (DEG2RAD * lon),
           Real.sin (DEG2RAD * lat)] ∧
    (ENU.from_ll lat lon alt).type = FrameTypes.ENU ∧
    (ENU.from_ll lat lon alt).R * (ENU.from_ll lat lon alt).R.transpose = 1 ∧
    (ENU.from_ll lat lon alt).ecef2nav (ENU.from_ll lat lon alt).origin = 0 ∧
    (ENU.from_ecef x y z).type = FrameTypes.ENU ∧
    (ENU.from_ecef x y z).R * (ENU.from_ecef x y z).R.transpose = 1 ∧
    (ENU.from_ecef x y z).origin = ![x, y, z] := by
  refine ⟨rfl, rfl, ?_, ?_, rfl, ?_, rfl⟩
  · exact enuRot_mul_transpose (DEG2RAD * lat) (DEG2RAD * lon)
  · simp [NavigationFrame.ecef2nav]
  · exact enuRot_mul_transpose (DEG2RAD * (ecef2llh x y z 0))
      (DEG2RAD * (ecef2llh x y z 1))

/-- C1 (evaluation of the code at a failing input): the point returned by
`llh2ecef 45 0 0` lies far off the WGS84 ellipsoid: the normalized
ellipsoid equation x²/RE² + y²/RE² + z²/(RE²·(1−E2)), which equals 1 for
every height-0 point of the geodetic mapping that `ecef2llh` inverts,
evaluates above 1.003 here (about 21 km of radial error), because the
z-component of `llh2ecef` uses the meridional radius `rm` where the
inverse of `ecef2llh` requires `rn·(1−E2)`; hence the claimed 1e-6
round-trip fails at lat = 45. -/
theorem llh2ecef_off_ellipsoid_at_45 :
    1.003 < (llh2ecef 45 0 0 0) ^ 2 / RE ^ 2 + (llh2ecef 45 0 0 1) ^ 2 / RE ^ 2 +
      (llh2ecef 45 0 0 2) ^ 2 / (RE ^ 2 * (1 - E2)) := by
  have h45 : DEG2RAD * (45 : ℝ) = Real.pi / 4 := by
    unfold DEG2RAD
    ring
  have h0 : DEG2RAD * (0 : ℝ) = 0 := mul_zero _
  have hsin : Real.sin (DEG2RAD * 45) = Real.sqrt 2 / 2 := by
    rw [h45, Real.sin_pi_div_four]
  have hcos : Real.cos (DEG2RAD * 45) = Real.sqrt 2 / 2 := by
    rw [h45, Real.cos_pi_div_four]
  have hsq : (Real.sqrt 2 / 2) ^ 2 = 1 / 2 := by
    rw [div_pow, Real.sq_sqrt (by norm_num : (0:ℝ) ≤ 2)]
    norm_num
  have harg : 1 - E2 * Real.sin (DEG2RAD * 45) ^ 2 = 1 - E2 / 2 := by
    rw [hsin, hsq]
    ring
  have hq : (0 : ℝ) < 1 - E2 / 2 := by
    unfold E2
    norm_num
  have hc0 : llh2ecef 45 0 0 0 = RE / Real.sqrt (1 - E2 / 2) * (Real.sqrt 2 / 2) := by
    show (RE / Real.sqrt (1 - E2 * Real.sin (DEG2RAD * 45) ^ 2) + 0) *
        Real.cos (DEG2RAD * 45) * Real.cos (DEG2RAD * 0) = _
    rw [harg, hcos, h0, Real.cos_zero, add_zero, mul_one]
  have hc1 : llh2ecef 45 0 0 1 = 0 := by
    show (RE / Real.sqrt (1 - E2 * Real.sin (DEG2RAD * 45) ^ 2) + 0) *
        Real.cos (DEG2RAD * 45) * Real.sin (DEG2RAD * 0) = _
    rw [h0, Real.sin_zero, mul_zero]
  have hc2 : llh2ecef 45 0 0 2 =
      RE * (1 - E2) / (1 - E2 / 2) ^ ((3 : ℝ) / 2) * (Real.sqrt 2 / 2) := by
    show (RE * (1 - E2) / (1 - E2 * Real.sin (DEG2RAD * 45) ^ 2) ^ ((3 : ℝ) / 2) + 0) *
        Real.sin (DEG2RAD * 45) = _
    rw [harg, hsin, add_zero]
  have hpow : ((1 - E2 / 2) ^ ((3 : ℝ) / 2)) ^ 2 = (1 - E2 / 2) ^ 3 := by
    rw [← Real.rpow_natCast ((1 - E2 / 2) ^ ((3 : ℝ) / 2)) 2,
      ← Real.rpow_mul hq.le]
    norm_num
    rw [← Real.rpow_natCast (1 - E2 / 2) 3]
    norm_num
  have h0sq : (llh2ecef 45 0 0 0) ^ 2 = RE ^ 2 / (1 - E2 / 2) * (1 / 2) := by
    rw [hc0, mul_pow, hsq, div_pow, Real.sq_sqrt hq.le]
  have h2sq : (llh2ecef 45 0 0 2) ^ 2 =
      RE ^ 2 * (1 - E2) ^ 2 / (1 - E2 / 2) ^ 3 * (1 / 2) := by
    rw [hc2, mul_pow, hsq, div_pow, hpow, mul_pow]
  rw [h0sq, hc1, h2sq]
  unfold RE E2
  norm_num

end InsNav
